import Mathlib

/-!
Shallow embedding of the transaction state-transition engine of
protolambda/go-ethereum (`core/state_transition.go`) together with the
deposit-transaction accessors (`core/types` DepositTx), and proofs of the
specification claims about them.

Go `uint64` values are modelled as `Nat` with explicit `% 2^64` wherever the
source performs machine arithmetic that can wrap; `big.Int` values are
modelled as `Int`.  Stateful methods on `*StateTransition` mutate their
receiver and the shared `GasPool`/`StateDB` through pointers, so every such
method is embedded as a function returning the updated working state even on
the error path.
-/

/-- `2^64 - 1`, Go's `math.MaxUint64`. -/
def MaxUint64 : Nat := 2 ^ 64 - 1

/-- Wrapping `uint64` addition. -/
def uadd (a b : Nat) : Nat := (a + b) % 2 ^ 64

/-- Wrapping `uint64` multiplication. -/
def umul (a b : Nat) : Nat := (a * b) % 2 ^ 64

/-- Wrapping `uint64` subtraction (for arguments below `2^64`). -/
def usub (a b : Nat) : Nat := (2 ^ 64 + a - b) % 2 ^ 64

/-- Modelled from the spec: the `params` package is not under `src/`; these are
the protocol gas constants the source refers to by name.  `TxGas` is pinned by
the spec scenario "legacy transaction, gasLimit=21000, ... usedGas=21000". -/
def TxGas : Nat := 21000

/-- Modelled from the spec: `params.TxGasContractCreation` (creation base cost,
strictly larger than the call base cost). -/
def TxGasContractCreation : Nat := 53000

/-- Modelled from the spec: `params.TxDataZeroGas` (per zero payload byte). -/
def TxDataZeroGas : Nat := 4

/-- Modelled from the spec: `params.TxDataNonZeroGasFrontier` (per non-zero
payload byte before the EIP-2028 repricing). -/
def TxDataNonZeroGasFrontier : Nat := 68

/-- Modelled from the spec: `params.TxDataNonZeroGasEIP2028` (per non-zero
payload byte after EIP-2028). -/
def TxDataNonZeroGasEIP2028 : Nat := 16

/-- Modelled from the spec: `params.InitCodeWordGas` (per 32-byte word of
creation init code, EIP-3860). -/
def InitCodeWordGas : Nat := 2

/-- Modelled from the spec: `params.TxAccessListAddressGas` (per access-list
address, EIP-2930). -/
def TxAccessListAddressGas : Nat := 2400

/-- Modelled from the spec: `params.TxAccessListStorageKeyGas` (per access-list
storage key, EIP-2930). -/
def TxAccessListStorageKeyGas : Nat := 1900

/-- Modelled from the spec: `params.RefundQuotient`, the pre-London refund
quotient ("refund quotient is 2 pre-upgrade"). -/
def RefundQuotient : Nat := 2

/-- Modelled from the spec: `params.RefundQuotientEIP3529`, the post-London
refund quotient ("5 post-upgrade"). -/
def RefundQuotientEIP3529 : Nat := 5

/-- Modelled from the spec: `params.DataGasPerBlob` (EIP-4844 data gas charged
per blob commitment), `1 << 17`. -/
def DataGasPerBlob : Nat := 131072

/-- Modelled from the spec: `params.MaxInitCodeSize` (EIP-3860 init-code size
limit), `2 * 24576`. -/
def MaxInitCodeSize : Nat := 49152

/-- Modelled from the spec: the fixed Optimism base-fee-recipient address
(`params.OptimismBaseFeeRecipient`); addresses are modelled as `Nat`. -/
def OptimismBaseFeeRecipient : Nat := 0x4200000000000000000000000000000000000019

/-- Modelled from the spec: the fixed Optimism L1-fee-recipient address
(`params.OptimismL1FeeRecipient`). -/
def OptimismL1FeeRecipient : Nat := 0x420000000000000000000000000000000000001A

/-- `crypto.Keccak256Hash(nil)`: the canonical empty-code hash used by the
EOA check in `preCheck`; hashes are modelled as `Nat`. -/
def emptyCodeHash : Nat :=
  0xc5d2460186f7233c927e7db2dcc703c0e500b653ca82273b7bfad8045d85a470

/-- `big.Int.BitLen`: the bit length of the absolute value. -/
def bigBitLen (n : Int) : Nat := Nat.size n.natAbs

/-- One entry of `types.AccessList`: an address plus its storage keys. -/
structure AccessTuple where
  address : Nat
  storageKeys : List Nat
deriving DecidableEq, Repr

/-- `types.AccessList`. -/
abbrev AccessList := List AccessTuple

/-- Modelled from the spec: `types.AccessList.StorageKeys()` is not under
`src/`; it returns the total number of storage keys across all entries
("a flat per-key cost for each access-list storage key"). -/
def AccessList.StorageKeys (al : AccessList) : Nat :=
  (al.map (fun t => t.storageKeys.length)).sum

/-- The error values surfaced by the embedded pipeline (the sentinel `Err...`
values of package `core`; wrapped errors are identified with the sentinel they
wrap, except that mere formatting context is dropped). -/
inductive TxErr where
  | gasUintOverflow
  | intrinsicGas
  | gasLimitReached
  | dataGasLimitReached
  | insufficientFunds
  | internalFailure
  | nonceTooHigh
  | nonceTooLow
  | nonceMax
  | senderNoEOA
  | feeCapVeryHigh
  | tipVeryHigh
  | tipAboveFeeCap
  | feeCapTooLow
  | maxFeePerDataGas
  | insufficientFundsForTransfer
  | maxInitCodeSizeExceeded
  | nilBigInt
deriving DecidableEq, Repr

/-- VM-level execution errors (opaque to this engine). -/
inductive VMErr where
  | executionReverted
  | other (code : Nat)
deriving DecidableEq, Repr

/-- The error stored in an `ExecutionResult`: either a VM error from
`Call`/`Create`, or a consensus error wrapped by the failed-deposit path
(`fmt.Errorf("failed deposit: %w", err)`). -/
inductive ResErr where
  | vm (e : VMErr)
  | failedDeposit (e : TxErr)
deriving DecidableEq, Repr

/-- `core.ExecutionResult`. -/
structure ExecutionResult where
  UsedGas : Nat
  Err : Option ResErr
  ReturnData : List Nat
deriving DecidableEq, Repr

/-- `toWordSize` from `state_transition.go`: ceiled 32-byte word count. -/
def toWordSize (size : Nat) : Nat :=
  if size > MaxUint64 - 31 then MaxUint64 / 32 + 1
  else (size + 31) / 32

/-- The base-plus-payload portion of `core.IntrinsicGas` (the code up to and
including the `dataLen > 0` block), split out of the full function for proof
convenience.  Payload bytes are `List Nat`.  All `uint64` arithmetic is
wrapped; each of these additive steps is guarded by the source's overflow
checks. -/
def intrinsicPayloadGas (data : List Nat)
    (isContractCreation isHomestead isEIP2028 isEIP3860 : Bool) :
    Except TxErr Nat :=
  let gas0 : Nat := if isContractCreation && isHomestead then TxGasContractCreation else TxGas
  let dataLen := data.length
  if dataLen > 0 then
    let nz := (data.filter (fun byt => byt != 0)).length
    let nonZeroGas := if isEIP2028 then TxDataNonZeroGasEIP2028 else TxDataNonZeroGasFrontier
    if (MaxUint64 - gas0) / nonZeroGas < nz then Except.error TxErr.gasUintOverflow
    else
      let gas1 := uadd gas0 (umul nz nonZeroGas)
      let z := dataLen - nz
      if (MaxUint64 - gas1) / TxDataZeroGas < z then Except.error TxErr.gasUintOverflow
      else
        let gas2 := uadd gas1 (umul z TxDataZeroGas)
        if isContractCreation && isEIP3860 then
          let lenWords := toWordSize dataLen
          if (MaxUint64 - gas2) / InitCodeWordGas < lenWords then
            Except.error TxErr.gasUintOverflow
          else Except.ok (uadd gas2 (umul lenWords InitCodeWordGas))
        else Except.ok gas2
  else Except.ok gas0

/-- `core.IntrinsicGas` from `state_transition.go`: the payload portion above
followed by the access-list additions.  The access list is `Option` (a nil Go
slice is `none`); the access-list additions are not overflow-guarded in the
source. -/
def IntrinsicGas (data : List Nat) (accessList : Option AccessList)
    (isContractCreation isHomestead isEIP2028 isEIP3860 : Bool) :
    Except TxErr Nat :=
  match intrinsicPayloadGas data isContractCreation isHomestead isEIP2028 isEIP3860 with
  | Except.error e => Except.error e
  | Except.ok gas =>
    match accessList with
    | none => Except.ok gas
    | some al =>
      let gas3 := uadd gas (umul al.length TxAccessListAddressGas)
      Except.ok (uadd gas3 (umul (AccessList.StorageKeys al) TxAccessListStorageKeyGas))

/-- Modelled from the spec: the mutable ledger behind `vm.StateDB` is not
under `src/`; only the fields this engine reads or writes are modelled
(balances, nonces, the refund counter, code hashes). -/
structure WorldState where
  balance : Nat → Int
  nonce : Nat → Nat
  refund : Nat
  codeHash : Nat → Nat

def WorldState.AddBalance (w : WorldState) (a : Nat) (v : Int) : WorldState :=
  { w with balance := fun x => if x = a then w.balance x + v else w.balance x }

def WorldState.SubBalance (w : WorldState) (a : Nat) (v : Int) : WorldState :=
  { w with balance := fun x => if x = a then w.balance x - v else w.balance x }

def WorldState.SetNonce (w : WorldState) (a : Nat) (n : Nat) : WorldState :=
  { w with nonce := fun x => if x = a then n else w.nonce x }

/-- Modelled from the spec: `Snapshot` yields "an opaque handle to world-state
at a point in time, enabling later exact rollback"; the handle is modelled as
the captured state itself. -/
def WorldState.Snapshot (w : WorldState) : WorldState := w

/-- Modelled from the spec: `RevertToSnapshot` restores exactly the state the
snapshot captured. -/
def WorldState.RevertToSnapshot (_w : WorldState) (snap : WorldState) : WorldState := snap

/-- `StateDB.Prepare` resets only per-transaction transient state (warm sets,
transient storage), none of which is modelled, so it is the identity on the
modelled fields. -/
def WorldState.Prepare (w : WorldState) : WorldState := w

/-- Modelled from the spec: `core.GasPool` is not under `src/`; per the spec it
is "a single mutable per-block counter of remaining ordinary gas and remaining
data/blob gas; supports bounded subtraction that fails when the pool is
exhausted, and unbounded addition (refund)". -/
structure GasPool where
  gas : Nat
  dataGas : Nat
deriving DecidableEq, Repr

/-- Modelled from the spec: `subGas(n) -> ok | fail(gas-limit-reached)`. -/
def GasPool.SubGas (gp : GasPool) (n : Nat) : Except TxErr GasPool :=
  if gp.gas < n then Except.error TxErr.gasLimitReached
  else Except.ok { gp with gas := gp.gas - n }

/-- Modelled from the spec: `subDataGas(n) -> ok | fail`. -/
def GasPool.SubDataGas (gp : GasPool) (n : Nat) : Except TxErr GasPool :=
  if gp.dataGas < n then Except.error TxErr.dataGasLimitReached
  else Except.ok { gp with dataGas := gp.dataGas - n }

/-- Modelled from the spec: `addGas(n)`, unbounded addition. -/
def GasPool.AddGas (gp : GasPool) (n : Nat) : GasPool :=
  { gp with gas := gp.gas + n }

/-- `core.Message`: the capability view of a transaction used by the engine.
Addresses and hashes are `Nat`; `big.Int` fields are `Int`.  `GasFeeCap` is
`Option` because `buyGas` explicitly branches on a nil fee cap. -/
structure Message where
  From : Nat
  To : Option Nat
  GasPrice : Int
  GasFeeCap : Option Int
  GasTipCap : Int
  MaxFeePerDataGas : Int
  Gas : Nat
  Value : Int
  Nonce : Nat
  IsFake : Bool
  Data : List Nat
  AccessList : Option AccessList
  DataHashes : List Nat
  IsSystemTx : Bool
  IsDepositTx : Bool
  Mint : Option Int

/-- Result of a VM `Call`/`Create`: return data, remaining gas, optional VM
error, and the world state after execution. -/
structure CallResult where
  ret : List Nat
  gasLeft : Nat
  vmerr : Option VMErr
  world : WorldState

/-- Protocol rule flags (`params.Rules` at the current block/time).  The
source queries `ChainConfig().IsLondon(BlockNumber)` and `rules.IsLondon`
which agree by construction of `Rules`, so a single flag models both; the same
holds for `IsSharding(Time)`. -/
structure ChainRules where
  IsHomestead : Bool
  IsIstanbul : Bool
  IsLondon : Bool
  IsShanghai : Bool
  IsOptimismBedrock : Bool

/-- The external EVM collaborator: execution context, chain configuration and
the two opaque entry points.  `DataGasPrice` is the value of
`misc.GetDataGasPrice(ExcessDataGas)` (a pure function of a fixed input, so a
single oracle value is faithful). -/
structure EVMModel where
  BlockNumber : Nat
  Time : Nat
  BaseFee : Int
  Coinbase : Nat
  ExcessDataGas : Option Int
  L1CostFunc : Option (Nat → Message → Option Int)
  NoBaseFee : Bool
  IsSharding : Bool
  rules : ChainRules
  OptimismIsSome : Bool
  DataGasPrice : Int
  CanTransfer : WorldState → Nat → Int → Bool
  Call : WorldState → Nat → Nat → List Nat → Nat → Int → CallResult
  Create : WorldState → Nat → List Nat → Nat → Int → CallResult

/-- `core.StateTransition`: the per-invocation working state. -/
structure StateTransition where
  gp : GasPool
  msg : Message
  gasRemaining : Nat
  state : WorldState
  evm : EVMModel

/-- `st.to()`: recipient, or the zero address for contract creation. -/
def StateTransition.to (st : StateTransition) : Nat := st.msg.To.getD 0

/-- `st.dataGasUsed()`: `uint64(len(msg.DataHashes())) * params.DataGasPerBlob`. -/
def StateTransition.dataGasUsed (st : StateTransition) : Nat :=
  umul st.msg.DataHashes.length DataGasPerBlob

/-- `st.gasUsed()`: `st.msg.Gas() - st.gasRemaining` in `uint64`. -/
def StateTransition.gasUsed (st : StateTransition) : Nat :=
  usub st.msg.Gas st.gasRemaining

/-- `st.buyGas()` from `state_transition.go`.  The pair's second component is
the returned error; the first component is the working state as left behind by
the call, because `st.gp` and `st.state` are shared mutable collaborators whose
updates survive an error return. -/
def StateTransition.buyGas (st : StateTransition) : StateTransition × Option TxErr :=
  let mgval0 : Int := (st.msg.Gas : Int) * st.msg.GasPrice
  let l1Cost : Option Int :=
    match st.evm.L1CostFunc with
    | some f => f st.evm.BlockNumber st.msg
    | none => none
  let mgval1 : Int :=
    match l1Cost with
    | some c => mgval0 + c
    | none => mgval0
  if st.evm.IsSharding && st.evm.ExcessDataGas.isNone then
    (st, some TxErr.internalFailure)
  else
    let dataGasUsed : Nat := if st.evm.IsSharding then st.dataGasUsed else 0
    let dgval : Int :=
      if st.evm.IsSharding then st.evm.DataGasPrice * (st.dataGasUsed : Int) else 0
    let balanceRequired : Int :=
      match st.msg.GasFeeCap with
      | none => mgval1
      | some feeCap =>
        st.msg.Value + dgval + (st.msg.Gas : Int) * feeCap +
          (match l1Cost with | some c => c | none => 0)
    if st.state.balance st.msg.From < balanceRequired then
      (st, some TxErr.insufficientFunds)
    else
      match st.gp.SubGas st.msg.Gas with
      | Except.error e => (st, some e)
      | Except.ok gp1 =>
        let st1 : StateTransition :=
          { st with gp := gp1, gasRemaining := uadd st.gasRemaining st.msg.Gas }
        match st1.gp.SubDataGas dataGasUsed with
        | Except.error e => (st1, some e)
        | Except.ok gp2 =>
          let st2 : StateTransition := { st1 with gp := gp2 }
          let mgval2 : Int := mgval1 + dgval
          ({ st2 with state := st2.state.SubBalance st2.msg.From mgval2 }, none)

/-- `st.preCheck()` from `state_transition.go`.  `TxErr.nilBigInt` models the
nil-pointer panic of calling `BitLen`/`Cmp` on a nil fee cap under London (a
run Go aborts rather than completes, so it never counts as success). -/
def StateTransition.preCheck (st : StateTransition) : StateTransition × Option TxErr :=
  if st.msg.IsDepositTx then
    let st1 : StateTransition := { st with gasRemaining := uadd st.gasRemaining st.msg.Gas }
    if st1.msg.IsSystemTx then (st1, none)
    else
      match st1.gp.SubGas st1.msg.Gas with
      | Except.error e => (st1, some e)
      | Except.ok gp1 => ({ st1 with gp := gp1 }, none)
  else
    let nonFakeErr : Option TxErr :=
      if st.msg.IsFake then none
      else
        let stNonce := st.state.nonce st.msg.From
        if stNonce < st.msg.Nonce then some TxErr.nonceTooHigh
        else if stNonce > st.msg.Nonce then some TxErr.nonceTooLow
        else if uadd stNonce 1 < stNonce then some TxErr.nonceMax
        else
          let codeHash := st.state.codeHash st.msg.From
          if codeHash ≠ emptyCodeHash ∧ codeHash ≠ 0 then some TxErr.senderNoEOA
          else none
    match nonFakeErr with
    | some e => (st, some e)
    | none =>
      let londonErr : Option TxErr :=
        if st.evm.rules.IsLondon then
          match st.msg.GasFeeCap with
          | none => some TxErr.nilBigInt
          | some gasFeeCap =>
            let gasTipCap := st.msg.GasTipCap
            if !st.evm.NoBaseFee || bigBitLen gasFeeCap > 0 || bigBitLen gasTipCap > 0 then
              if bigBitLen gasFeeCap > 256 then some TxErr.feeCapVeryHigh
              else if bigBitLen gasTipCap > 256 then some TxErr.tipVeryHigh
              else if gasFeeCap < gasTipCap then some TxErr.tipAboveFeeCap
              else if gasFeeCap < st.evm.BaseFee then some TxErr.feeCapTooLow
              else none
            else none
        else none
      match londonErr with
      | some e => (st, some e)
      | none =>
        if st.dataGasUsed > 0 ∧ st.evm.IsSharding then
          if st.evm.DataGasPrice > st.msg.MaxFeePerDataGas then
            (st, some TxErr.maxFeePerDataGas)
          else st.buyGas
        else st.buyGas

/-- `st.refundGas(refundQuotient)` from `state_transition.go`. -/
def StateTransition.refundGas (st : StateTransition) (refundQuotient : Nat) : StateTransition :=
  let refund0 := st.gasUsed / refundQuotient
  let refund := if refund0 > st.state.refund then st.state.refund else refund0
  let st1 : StateTransition := { st with gasRemaining := uadd st.gasRemaining refund }
  let remaining : Int := (st1.gasRemaining : Int) * st1.msg.GasPrice
  let st2 : StateTransition :=
    { st1 with state := st1.state.AddBalance st1.msg.From remaining }
  { st2 with gp := st2.gp.AddGas st2.gasRemaining }

/-- The tail of `innerTransitionDb` after the VM call returns (the code from
the deposit short-circuit through the final result assembly), split out of the
full function for proof convenience.  `st4` is the working state holding the
post-execution remaining gas and world state; `ret`/`vmerr` are the VM call's
return data and error. -/
def StateTransition.finishTx (st4 : StateTransition) (ret : List Nat)
    (vmerr : Option VMErr) : StateTransition × Except TxErr ExecutionResult :=
  if st4.msg.IsDepositTx then
    let gasUsed := if st4.msg.IsSystemTx then 0 else st4.msg.Gas
    (st4, Except.ok { UsedGas := gasUsed, Err := vmerr.map ResErr.vm, ReturnData := ret })
  else
    let rules := st4.evm.rules
    let st5 := if !rules.IsLondon then st4.refundGas RefundQuotient
               else st4.refundGas RefundQuotientEIP3529
    let effectiveTip : Int :=
      if rules.IsLondon then
        min st5.msg.GasTipCap ((st5.msg.GasFeeCap.getD 0) - st5.evm.BaseFee)
      else st5.msg.GasPrice
    let st6 : StateTransition :=
      if st5.evm.NoBaseFee ∧ (st5.msg.GasFeeCap.getD 0) = 0 ∧ st5.msg.GasTipCap = 0 then
        st5
      else
        { st5 with state :=
            st5.state.AddBalance st5.evm.Coinbase ((st5.gasUsed : Int) * effectiveTip) }
    let st7 : StateTransition :=
      if st6.evm.OptimismIsSome ∧ rules.IsOptimismBedrock = true then
        let stA : StateTransition :=
          { st6 with state := st6.state.AddBalance OptimismBaseFeeRecipient ((st6.gasUsed : Int) * st6.evm.BaseFee) }
        match (match stA.evm.L1CostFunc with
               | some f => f stA.evm.BlockNumber stA.msg
               | none => none) with
        | some cost =>
          { stA with state := stA.state.AddBalance OptimismL1FeeRecipient cost }
        | none => stA
      else st6
    (st7, Except.ok { UsedGas := st7.gasUsed, Err := vmerr.map ResErr.vm,
                      ReturnData := ret })

/-- `st.innerTransitionDb()` from `state_transition.go`: the consensus checks
and the VM invocation, followed by `finishTx` above.  The tracer hooks
(`Config.Debug`) only emit diagnostics and are not modelled. -/
def StateTransition.innerTransitionDb (st : StateTransition) :
    StateTransition × Except TxErr ExecutionResult :=
  match st.preCheck with
  | (st1, some e) => (st1, Except.error e)
  | (st1, none) =>
    let msg := st1.msg
    let rules := st1.evm.rules
    let contractCreation := msg.To.isNone
    match IntrinsicGas msg.Data msg.AccessList contractCreation
        rules.IsHomestead rules.IsIstanbul rules.IsShanghai with
    | Except.error e => (st1, Except.error e)
    | Except.ok gas =>
      if st1.gasRemaining < gas then (st1, Except.error TxErr.intrinsicGas)
      else
        let st2 : StateTransition := { st1 with gasRemaining := st1.gasRemaining - gas }
        if 0 < msg.Value ∧ ¬st2.evm.CanTransfer st2.state msg.From msg.Value then
          (st2, Except.error TxErr.insufficientFundsForTransfer)
        else if rules.IsShanghai ∧ contractCreation = true ∧ msg.Data.length > MaxInitCodeSize then
          (st2, Except.error TxErr.maxInitCodeSizeExceeded)
        else
          let st3 : StateTransition := { st2 with state := st2.state.Prepare }
          let r : CallResult :=
            if contractCreation then
              st3.evm.Create st3.state msg.From msg.Data st3.gasRemaining msg.Value
            else
              let stateN := st3.state.SetNonce msg.From (uadd (st3.state.nonce msg.From) 1)
              st3.evm.Call stateN msg.From st3.to msg.Data st3.gasRemaining msg.Value
          let st4 : StateTransition := { st3 with gasRemaining := r.gasLeft, state := r.world }
          st4.finishTx r.ret r.vmerr

/-- `st.TransitionDb()` from `state_transition.go`. -/
def StateTransition.TransitionDb (st : StateTransition) :
    StateTransition × Except TxErr ExecutionResult :=
  let st0 : StateTransition :=
    match st.msg.Mint with
    | some mint => { st with state := st.state.AddBalance st.msg.From mint }
    | none => st
  let snap := st0.state.Snapshot
  match st0.innerTransitionDb with
  | (st1, Except.ok result) => (st1, Except.ok result)
  | (st1, Except.error err) =>
    if err ≠ TxErr.gasLimitReached ∧ st1.msg.IsDepositTx then
      let st2 : StateTransition := { st1 with state := st1.state.RevertToSnapshot snap }
      let st3 : StateTransition :=
        { st2 with state :=
            st2.state.SetNonce st2.msg.From (uadd (st2.state.nonce st2.msg.From) 1) }
      let gasUsed := if st3.msg.IsSystemTx then 0 else st3.msg.Gas
      (st3, Except.ok { UsedGas := gasUsed, Err := some (ResErr.failedDeposit err),
                        ReturnData := [] })
    else (st1, Except.error err)

/-- `core.NewStateTransition`. -/
def NewStateTransition (evm : EVMModel) (msg : Message) (gp : GasPool)
    (state : WorldState) : StateTransition :=
  { gp := gp, evm := evm, msg := msg, state := state, gasRemaining := 0 }

/-- `core.ApplyMessage`. -/
def ApplyMessage (evm : EVMModel) (msg : Message) (gp : GasPool)
    (state : WorldState) : StateTransition × Except TxErr ExecutionResult :=
  (NewStateTransition evm msg gp state).TransitionDb

/-- `types.DepositTx` from the deposit transaction source file.  Nilable
`big.Int` pointer fields are `Option Int`. -/
structure DepositTx where
  ChainID : Option Int
  To : Option Nat
  Value : Option Int
  Data : List Nat
  From : Option Nat

/-- Outcome of a Go function that may `panic` instead of returning. -/
inductive PanicOr (α : Type) where
  | panicked (message : String)
  | value (v : α)

/-- Modelled from the spec: the `DepositTxType` type byte is declared outside
`src/`; deposits are the `0x7E` typed-transaction class. -/
def DepositTxType : Nat := 0x7E

def DepositTx.txType (_tx : DepositTx) : Nat := DepositTxType

def DepositTx.chainID (tx : DepositTx) : Option Int := tx.ChainID

def DepositTx.protected (_tx : DepositTx) : Bool := true

def DepositTx.accessList (_tx : DepositTx) : Option AccessList := none

def DepositTx.data (tx : DepositTx) : List Nat := tx.Data

/-- `func (tx *DepositTx) gas() uint64 { return 100_000_000 }`. -/
def DepositTx.gas (_tx : DepositTx) : Nat := 100000000

def DepositTx.gasFeeCap (_tx : DepositTx) : Int := 0

def DepositTx.gasTipCap (_tx : DepositTx) : Int := 0

def DepositTx.gasPrice (_tx : DepositTx) : Int := 0

def DepositTx.value (tx : DepositTx) : Option Int := tx.Value

/-- `func (tx *DepositTx) nonce() uint64 { return 0xffff_ffff_ffff_ffff }`. -/
def DepositTx.nonce (_tx : DepositTx) : Nat := 0xffffffffffffffff

def DepositTx.toAddr (tx : DepositTx) : Option Nat := tx.To

/-- `rawSignatureValues` unconditionally panics. -/
def DepositTx.rawSignatureValues (_tx : DepositTx) : PanicOr (Int × Int × Int) :=
  PanicOr.panicked "deposit tx does not have a signature"

/-- `setSignatureValues` unconditionally panics. -/
def DepositTx.setSignatureValues (_tx : DepositTx)
    (_chainID _v _r _s : Int) : PanicOr Unit :=
  PanicOr.panicked "deposit tx does not have a signature"

/-- The exact mathematical value of the payload part of the intrinsic gas
(base cost, per-byte costs, init-code word cost), computed without any
64-bit truncation. -/
def exactPayloadGas (data : List Nat)
    (isContractCreation isHomestead isEIP2028 isEIP3860 : Bool) : Nat :=
  let gas0 := if isContractCreation && isHomestead then TxGasContractCreation else TxGas
  if data.length > 0 then
    let nz := (data.filter (fun byt => byt != 0)).length
    let nonZeroGas := if isEIP2028 then TxDataNonZeroGasEIP2028 else TxDataNonZeroGasFrontier
    gas0 + nz * nonZeroGas + (data.length - nz) * TxDataZeroGas +
      (if isContractCreation && isEIP3860 then toWordSize data.length * InitCodeWordGas else 0)
  else gas0

/-- The exact mathematical value of the access-list part of the intrinsic
gas, computed without any 64-bit truncation. -/
def accessListGas : Option AccessList → Nat
  | none => 0
  | some al =>
    al.length * TxAccessListAddressGas + AccessList.StorageKeys al * TxAccessListStorageKeyGas

/-- The exact mathematical value of the full intrinsic-gas sum. -/
def exactIntrinsicGas (data : List Nat) (accessList : Option AccessList)
    (isContractCreation isHomestead isEIP2028 isEIP3860 : Bool) : Nat :=
  exactPayloadGas data isContractCreation isHomestead isEIP2028 isEIP3860 +
    accessListGas accessList

/-- The L1-anchoring cost charged by `buyGas`, as an `Int` (0 when absent). -/
def l1CostOf (evm : EVMModel) (msg : Message) : Int :=
  match (match evm.L1CostFunc with
         | some f => f evm.BlockNumber msg
         | none => none) with
  | some c => c
  | none => 0

/-- The data-gas cost charged by `buyGas` (0 when sharding is inactive). -/
def dataCostOf (st : StateTransition) : Int :=
  if st.evm.IsSharding then st.evm.DataGasPrice * (st.dataGasUsed : Int) else 0

/-- The mint step at the top of `TransitionDb`, as its own function. -/
def applyMintSt (st : StateTransition) : StateTransition :=
  match st.msg.Mint with
  | some mint => { st with state := st.state.AddBalance st.msg.From mint }
  | none => st

/-- The VM contract: `Call`/`Create` return at most the gas they were given. -/
def VMGasBounded (evm : EVMModel) : Prop :=
  (∀ w c t d g v, (evm.Call w c t d g v).gasLeft ≤ g) ∧
  (∀ w c d g v, (evm.Create w c d g v).gasLeft ≤ g)

def wsBase : WorldState :=
  { balance := fun _ => 1000000000000, nonce := fun _ => 0, refund := 0,
    codeHash := fun _ => emptyCodeHash }

def evmBase : EVMModel :=
  { BlockNumber := 1, Time := 1, BaseFee := 0, Coinbase := 99,
    ExcessDataGas := none, L1CostFunc := none, NoBaseFee := false,
    IsSharding := false,
    rules := { IsHomestead := true, IsIstanbul := true, IsLondon := false,
               IsShanghai := false, IsOptimismBedrock := false },
    OptimismIsSome := false, DataGasPrice := 0,
    CanTransfer := fun _ _ _ => true,
    Call := fun w _ _ _ g _ => { ret := [], gasLeft := g, vmerr := none, world := w },
    Create := fun w _ _ g _ => { ret := [], gasLeft := g, vmerr := none, world := w } }

def msgBase : Message :=
  { From := 1, To := some 2, GasPrice := 1, GasFeeCap := none, GasTipCap := 0,
    MaxFeePerDataGas := 0, Gas := 100000, Value := 0, Nonce := 0, IsFake := false,
    Data := [], AccessList := none, DataHashes := [], IsSystemTx := false,
    IsDepositTx := false, Mint := none }

def gpBase : GasPool := { gas := 1000000, dataGas := 1000000 }

/-- Fixture for the C1 counterexample: sharding active, one blob, data-gas
pool too small for the blob's data gas. -/
def stDataPool : StateTransition :=
  { gp := { gas := 100000, dataGas := 1000 },
    msg := { msgBase with DataHashes := [5], Gas := 21000 },
    gasRemaining := 0, state := wsBase,
    evm :=
      { evmBase with
        IsSharding := true, ExcessDataGas := some 0,
        DataGasPrice := 1 } }

/-- Fixture for the C1 witness: sender balance too small. -/
def stPoor : StateTransition :=
  { gp := gpBase, msg := msgBase, gasRemaining := 0,
    state := { wsBase with balance := fun _ => 0 }, evm := evmBase }

/-- Fixture for the C5 witness. -/
def stLegacy : StateTransition :=
  { gp := gpBase, msg := msgBase, gasRemaining := 0, state := wsBase, evm := evmBase }

/-- Fixture EVM for the C3 counterexample: every call consumes 5000 gas and
leaves a storage-refund counter of 15000 behind. -/
def evmRefund : EVMModel :=
  { evmBase with
    Call := fun w _ _ _ g _ =>
      { ret := [], gasLeft := g - 5000, vmerr := none,
        world := { w with refund := 15000 } } }

/-- Fixture deposit message that fails intrinsic-gas (gas limit 1000 below
the 21000 base cost), with a mint of 5. -/
def msgDepositFail : Message :=
  { msgBase with IsDepositTx := true, Gas := 1000, Mint := some 5 }

/-- The inner-run working state left behind by the failing deposit fixture. -/
def stDepositFail : StateTransition :=
  ((applyMintSt (NewStateTransition evmBase msgDepositFail gpBase wsBase)).innerTransitionDb).1

/-!
## Theorems
-/

theorem uadd_umul_eq (g n c : Nat) (h : g + n * c < 2 ^ 64) :
    uadd g (umul n c) = g + n * c := by
  unfold uadd umul
  rw [Nat.mod_eq_of_lt (show n * c < 2 ^ 64 by omega), Nat.mod_eq_of_lt h]

theorem guard_not_fired (g n c : Nat) (hc : 0 < c) (h : g + n * c ≤ MaxUint64) :
    ¬ (MaxUint64 - g) / c < n := by
  rw [not_lt, Nat.le_div_iff_mul_le hc]
  omega

theorem guard_le (g n c : Nat) (hc : 0 < c) (hg : g ≤ MaxUint64)
    (hng : ¬ (MaxUint64 - g) / c < n) : g + n * c ≤ MaxUint64 := by
  rw [not_lt, Nat.le_div_iff_mul_le hc] at hng
  omega

theorem MaxUint64_succ : MaxUint64 + 1 = 2 ^ 64 := by norm_num [MaxUint64]

/-- As long as the exact payload sum fits in 64 bits, the guarded payload
computation performs no truncation and returns exactly that sum. -/
theorem intrinsicPayloadGas_of_le (data : List Nat) (cc ish ie2028 ie3860 : Bool)
    (h : exactPayloadGas data cc ish ie2028 ie3860 ≤ MaxUint64) :
    intrinsicPayloadGas data cc ish ie2028 ie3860 =
      Except.ok (exactPayloadGas data cc ish ie2028 ie3860) := by
  have hM := MaxUint64_succ
  simp only [intrinsicPayloadGas, exactPayloadGas] at h ⊢
  by_cases hd : data.length > 0
  · simp only [if_pos hd] at h ⊢
    set a := (data.filter (fun byt => byt != 0)).length with ha
    set g0 := (if cc && ish then TxGasContractCreation else TxGas) with hg0
    set c1 := (if ie2028 then TxDataNonZeroGasEIP2028 else TxDataNonZeroGasFrontier) with hc1
    have hc1pos : 0 < c1 := by
      rw [hc1]; split <;> norm_num [TxDataNonZeroGasEIP2028, TxDataNonZeroGasFrontier]
    have h1 : g0 + a * c1 ≤ MaxUint64 := by omega
    rw [if_neg (guard_not_fired g0 a c1 hc1pos h1), uadd_umul_eq g0 a c1 (by omega)]
    have h2 : g0 + a * c1 + (data.length - a) * TxDataZeroGas ≤ MaxUint64 := by omega
    have hzpos : (0:Nat) < TxDataZeroGas := by norm_num [TxDataZeroGas]
    rw [if_neg (guard_not_fired _ _ _ hzpos h2), uadd_umul_eq _ _ _ (by omega)]
    by_cases hw : (cc && ie3860) = true
    · simp only [if_pos hw] at h ⊢
      have h3 : g0 + a * c1 + (data.length - a) * TxDataZeroGas +
          toWordSize data.length * InitCodeWordGas ≤ MaxUint64 := by omega
      have hwpos : (0:Nat) < InitCodeWordGas := by norm_num [InitCodeWordGas]
      rw [if_neg (guard_not_fired _ _ _ hwpos (by omega)), uadd_umul_eq _ _ _ (by omega)]
    · simp only [if_neg hw, Nat.add_zero] at h ⊢
  · simp only [if_neg hd] at h ⊢

/-- A payload sum exceeding 64 bits always trips one of the source's
overflow guards. -/
theorem intrinsicPayloadGas_overflow (data : List Nat) (cc ish ie2028 ie3860 : Bool)
    (h : MaxUint64 < exactPayloadGas data cc ish ie2028 ie3860) :
    intrinsicPayloadGas data cc ish ie2028 ie3860 = Except.error TxErr.gasUintOverflow := by
  have hM := MaxUint64_succ
  simp only [intrinsicPayloadGas, exactPayloadGas] at h ⊢
  have hg0le : (if cc && ish then TxGasContractCreation else TxGas) ≤ MaxUint64 := by
    split <;> norm_num [TxGasContractCreation, TxGas, MaxUint64]
  by_cases hd : data.length > 0
  · rw [if_pos hd] at h ⊢
    set a := (data.filter (fun byt => byt != 0)).length with ha
    set g0 := (if cc && ish then TxGasContractCreation else TxGas) with hg0
    set c1 := (if ie2028 then TxDataNonZeroGasEIP2028 else TxDataNonZeroGasFrontier) with hc1
    have hc1pos : 0 < c1 := by
      rw [hc1]; split <;> norm_num [TxDataNonZeroGasEIP2028, TxDataNonZeroGasFrontier]
    have hzpos : (0:Nat) < TxDataZeroGas := by norm_num [TxDataZeroGas]
    have hwpos : (0:Nat) < InitCodeWordGas := by norm_num [InitCodeWordGas]
    by_cases g1 : (MaxUint64 - g0) / c1 < a
    · rw [if_pos g1]
    · have h1 : g0 + a * c1 ≤ MaxUint64 := guard_le g0 a c1 hc1pos hg0le g1
      rw [if_neg g1, uadd_umul_eq g0 a c1 (by omega)]
      by_cases g2 : (MaxUint64 - (g0 + a * c1)) / TxDataZeroGas < data.length - a
      · rw [if_pos g2]
      · have h2 : g0 + a * c1 + (data.length - a) * TxDataZeroGas ≤ MaxUint64 :=
          guard_le _ _ _ hzpos (by omega) g2
        rw [if_neg g2, uadd_umul_eq _ _ _ (by omega)]
        by_cases hw : (cc && ie3860) = true
        · rw [if_pos hw] at h ⊢
          by_cases g3 : (MaxUint64 - (g0 + a * c1 + (data.length - a) * TxDataZeroGas)) /
              InitCodeWordGas < toWordSize data.length
          · rw [if_pos g3]
          · have h3 := guard_le _ _ _ hwpos (by omega : g0 + a * c1 +
              (data.length - a) * TxDataZeroGas ≤ MaxUint64) g3
            omega
        · simp only [if_neg hw, Nat.add_zero] at h
          omega
  · simp only [if_neg hd] at h
    exact absurd h (by omega)

/-- As long as the exact sum fits in 64 bits, `IntrinsicGas` performs no
truncation and returns exactly that sum. -/
theorem intrinsicGas_eq_exact_of_le (data : List Nat) (accessList : Option AccessList)
    (cc ish ie2028 ie3860 : Bool)
    (h : exactIntrinsicGas data accessList cc ish ie2028 ie3860 ≤ MaxUint64) :
    IntrinsicGas data accessList cc ish ie2028 ie3860 =
      Except.ok (exactIntrinsicGas data accessList cc ish ie2028 ie3860) := by
  have hM := MaxUint64_succ
  have hp : exactPayloadGas data cc ish ie2028 ie3860 ≤ MaxUint64 := by
    unfold exactIntrinsicGas at h; omega
  unfold IntrinsicGas
  rw [intrinsicPayloadGas_of_le data cc ish ie2028 ie3860 hp]
  rcases accessList with _ | al
  · simp [exactIntrinsicGas, accessListGas]
  · have hx : exactPayloadGas data cc ish ie2028 ie3860 +
        al.length * TxAccessListAddressGas < 2 ^ 64 := by
      simp only [exactIntrinsicGas, accessListGas] at h; omega
    have hy : exactPayloadGas data cc ish ie2028 ie3860 +
        al.length * TxAccessListAddressGas +
        AccessList.StorageKeys al * TxAccessListStorageKeyGas < 2 ^ 64 := by
      simp only [exactIntrinsicGas, accessListGas] at h; omega
    simp only [uadd_umul_eq _ _ _ hx, uadd_umul_eq _ _ _ hy]
    simp only [exactIntrinsicGas, accessListGas, Nat.add_assoc]

/-- `toWordSize` is monotone. -/
theorem toWordSize_mono {s t : Nat} (h : s ≤ t) : toWordSize s ≤ toWordSize t := by
  simp only [toWordSize, MaxUint64]
  split_ifs <;> omega

/-- Appending a byte to the payload never decreases the exact payload sum. -/
theorem exactPayloadGas_append_byte (data : List Nat) (b : Nat) (cc ish ie2028 ie3860 : Bool) :
    exactPayloadGas data cc ish ie2028 ie3860 ≤
      exactPayloadGas (data ++ [b]) cc ish ie2028 ie3860 := by
  have hfl : (data.filter (fun byt => byt != 0)).length ≤ data.length :=
    List.length_filter_le _ _
  have hw := toWordSize_mono (show data.length ≤ data.length + 1 by omega)
  simp only [exactPayloadGas, List.filter_append, List.length_append, List.length_singleton]
  rcases ie2028 <;> rcases cc <;> rcases ish <;> rcases ie3860 <;>
    simp only [TxDataNonZeroGasEIP2028, TxDataNonZeroGasFrontier, TxDataZeroGas,
      InitCodeWordGas, TxGas, TxGasContractCreation, Bool.and_self, Bool.and_false,
      Bool.and_true, Bool.false_and, Bool.true_and, if_true, if_false] <;>
    rcases hb : (b != 0) <;>
    simp only [List.filter_cons, List.filter_nil, hb, if_true, if_false, cond_true,
      cond_false, List.length_cons, List.length_nil] <;>
    split_ifs <;> omega

/-- Appending an entry adds exactly its address cost plus its key costs to the
exact access-list sum. -/
theorem accessListGas_append (al : AccessList) (t : AccessTuple) :
    accessListGas (some (al ++ [t])) =
      accessListGas (some al) + TxAccessListAddressGas +
        t.storageKeys.length * TxAccessListStorageKeyGas := by
  simp only [accessListGas, AccessList.StorageKeys, List.map_append, List.sum_append,
    List.length_append, List.map_cons, List.map_nil, List.sum_cons, List.sum_nil,
    List.length_cons, List.length_nil]
  ring

/-- Total storage-key count of a replicated keyless entry is zero. -/
theorem storageKeys_replicate_nil (n a : Nat) :
    AccessList.StorageKeys (List.replicate n ⟨a, []⟩) = 0 := by
  simp [AccessList.StorageKeys, List.map_replicate, List.sum_replicate, smul_eq_mul]

/-- C2 (amended): every additive step of `IntrinsicGas` that operates on the
payload (base cost, per-byte costs, init-code word cost) checks for
unsigned-64-bit overflow before adding, and on overflow the function returns
the dedicated overflow error rather than a wrapped-around value: with no
access list the result is exactly the unbounded sum when that sum fits in 64
bits, and `ErrGasUintOverflow` otherwise.  The access-list additions carry no
such check (see the counterexample). -/
theorem intrinsicGas_overflow_checked_no_accessList (data : List Nat)
    (cc ish ie2028 ie3860 : Bool) :
    IntrinsicGas data none cc ish ie2028 ie3860 =
      if exactIntrinsicGas data none cc ish ie2028 ie3860 ≤ MaxUint64
      then Except.ok (exactIntrinsicGas data none cc ish ie2028 ie3860)
      else Except.error TxErr.gasUintOverflow := by
  split_ifs with h
  · exact intrinsicGas_eq_exact_of_le data none cc ish ie2028 ie3860 h
  · have hp : MaxUint64 < exactPayloadGas data cc ish ie2028 ie3860 := by
      simp only [exactIntrinsicGas, accessListGas, Nat.add_zero] at h
      omega
    unfold IntrinsicGas
    rw [intrinsicPayloadGas_overflow data cc ish ie2028 ie3860 hp]

/-- C2 counterexample: an access list of `2^59` keyless entries makes the
unchecked access-list addition wrap around `2^64` exactly, so `IntrinsicGas`
returns `21000` (just the base cost) instead of the overflow error, although
the exact sum exceeds `MaxUint64`. -/
theorem intrinsicGas_accessList_wrap_counterexample :
    IntrinsicGas [] (some (List.replicate 576460752303423488 ⟨0, []⟩)) false true true true =
      Except.ok 21000 ∧
    MaxUint64 < 21000 + 576460752303423488 * TxAccessListAddressGas := by
  constructor
  · have hp : intrinsicPayloadGas [] false true true true = Except.ok 21000 := rfl
    unfold IntrinsicGas
    rw [hp]
    show Except.ok (uadd (uadd 21000
        (umul (List.replicate 576460752303423488 (⟨0, []⟩ : AccessTuple)).length
          TxAccessListAddressGas))
        (umul (AccessList.StorageKeys (List.replicate 576460752303423488 ⟨0, []⟩))
          TxAccessListStorageKeyGas)) = Except.ok 21000
    rw [List.length_replicate, storageKeys_replicate_nil]
    rfl
  · norm_num [MaxUint64, TxAccessListAddressGas]

/-- Key count distributes over appending one entry. -/
theorem storageKeys_append (al : AccessList) (t : AccessTuple) :
    AccessList.StorageKeys (al ++ [t]) =
      AccessList.StorageKeys al + t.storageKeys.length := by
  simp [AccessList.StorageKeys, List.map_append, List.sum_append]

/-- C8 (amended): with a fixed set of rule flags, appending a payload byte,
appending an access-list entry, and appending a storage key to an entry each
never decrease the value returned by `IntrinsicGas`, provided the exact
unbounded sum of the largest input still fits in 64 bits (without that proviso
the unchecked access-list addition can wrap and decrease the result; see the
counterexample). -/
theorem intrinsicGas_monotone_amended (data : List Nat) (b : Nat) (al : AccessList)
    (a k : Nat) (ks : List Nat) (cc ish ie2028 ie3860 : Bool)
    (h : exactIntrinsicGas (data ++ [b]) (some (al ++ [⟨a, ks ++ [k]⟩]))
        cc ish ie2028 ie3860 ≤ MaxUint64) :
    ∃ g0 g1 g2 g3,
      IntrinsicGas data (some al) cc ish ie2028 ie3860 = Except.ok g0 ∧
      IntrinsicGas (data ++ [b]) (some al) cc ish ie2028 ie3860 = Except.ok g1 ∧
      IntrinsicGas (data ++ [b]) (some (al ++ [⟨a, ks⟩])) cc ish ie2028 ie3860 =
        Except.ok g2 ∧
      IntrinsicGas (data ++ [b]) (some (al ++ [⟨a, ks ++ [k]⟩])) cc ish ie2028 ie3860 =
        Except.ok g3 ∧
      g0 ≤ g1 ∧ g1 ≤ g2 ∧ g2 ≤ g3 := by
  have hpb := exactPayloadGas_append_byte data b cc ish ie2028 ie3860
  have e01 : exactIntrinsicGas data (some al) cc ish ie2028 ie3860 ≤
      exactIntrinsicGas (data ++ [b]) (some al) cc ish ie2028 ie3860 := by
    unfold exactIntrinsicGas; omega
  have e12 : exactIntrinsicGas (data ++ [b]) (some al) cc ish ie2028 ie3860 ≤
      exactIntrinsicGas (data ++ [b]) (some (al ++ [⟨a, ks⟩])) cc ish ie2028 ie3860 := by
    unfold exactIntrinsicGas
    rw [accessListGas_append]
    omega
  have e23 : exactIntrinsicGas (data ++ [b]) (some (al ++ [⟨a, ks⟩])) cc ish ie2028 ie3860 ≤
      exactIntrinsicGas (data ++ [b]) (some (al ++ [⟨a, ks ++ [k]⟩])) cc ish ie2028 ie3860 := by
    unfold exactIntrinsicGas
    rw [accessListGas_append, accessListGas_append]
    simp only [List.length_append, List.length_cons, List.length_nil]
    have hdist : (ks.length + (0 + 1)) * TxAccessListStorageKeyGas =
        ks.length * TxAccessListStorageKeyGas + TxAccessListStorageKeyGas := by ring
    omega
  exact ⟨_, _, _, _,
    intrinsicGas_eq_exact_of_le _ _ _ _ _ _ (by omega),
    intrinsicGas_eq_exact_of_le _ _ _ _ _ _ (by omega),
    intrinsicGas_eq_exact_of_le _ _ _ _ _ _ (by omega),
    intrinsicGas_eq_exact_of_le _ _ _ _ _ _ h,
    e01, e12, e23⟩

/-- Witness for the amended C8 monotonicity theorem at a small concrete
input. -/
theorem intrinsicGas_monotone_amended_witness :
    ∃ g0 g1 g2 g3,
      IntrinsicGas [] (some []) true true true true = Except.ok g0 ∧
      IntrinsicGas ([] ++ [0]) (some []) true true true true = Except.ok g1 ∧
      IntrinsicGas ([] ++ [0]) (some ([] ++ [⟨2, []⟩])) true true true true = Except.ok g2 ∧
      IntrinsicGas ([] ++ [0]) (some ([] ++ [⟨2, [] ++ [3]⟩])) true true true true =
        Except.ok g3 ∧
      g0 ≤ g1 ∧ g1 ≤ g2 ∧ g2 ≤ g3 :=
  intrinsicGas_monotone_amended [] 0 [] 2 3 [] true true true true (by decide)

/-- Evaluation of `IntrinsicGas` on an empty payload with an access list, in
terms of the list's length and key count. -/
theorem intrinsicGas_empty_data_accessList (al : AccessList) :
    IntrinsicGas [] (some al) false true true true =
      Except.ok (uadd (uadd 21000 (umul al.length TxAccessListAddressGas))
        (umul (AccessList.StorageKeys al) TxAccessListStorageKeyGas)) := by
  have hp : intrinsicPayloadGas [] false true true true = Except.ok 21000 := rfl
  unfold IntrinsicGas
  rw [hp]

/-- C8 counterexample: with `7686143364045637` access-list addresses the
wrapped access-list sum sits just below `2^64`; appending one more address
wraps it past `2^64`, and the returned gas value drops from
`18446744073709549800` to `584`. -/
theorem intrinsicGas_monotonicity_counterexample :
    IntrinsicGas [] (some (List.replicate 7686143364045637 ⟨0, []⟩)) false true true true =
      Except.ok 18446744073709549800 ∧
    IntrinsicGas [] (some (List.replicate 7686143364045637 ⟨0, []⟩ ++ [⟨0, []⟩]))
        false true true true = Except.ok 584 ∧
    584 < 18446744073709549800 := by
  refine ⟨?_, ?_, by norm_num⟩
  · rw [intrinsicGas_empty_data_accessList, List.length_replicate, storageKeys_replicate_nil]
    rfl
  · rw [intrinsicGas_empty_data_accessList, List.length_append, List.length_replicate,
      storageKeys_append, storageKeys_replicate_nil]
    rfl

theorem subGas_error_iff (gp : GasPool) (n : Nat) (e : TxErr) :
    gp.SubGas n = Except.error e ↔ gp.gas < n ∧ e = TxErr.gasLimitReached := by
  unfold GasPool.SubGas
  split_ifs with hc <;> simp_all [eq_comm]

theorem subGas_ok_iff (gp : GasPool) (n : Nat) (gp' : GasPool) :
    gp.SubGas n = Except.ok gp' ↔
      ¬ gp.gas < n ∧ gp' = { gp with gas := gp.gas - n } := by
  unfold GasPool.SubGas
  split_ifs with hc <;> simp_all [eq_comm]

theorem subDataGas_error_iff (gp : GasPool) (n : Nat) (e : TxErr) :
    gp.SubDataGas n = Except.error e ↔ gp.dataGas < n ∧ e = TxErr.dataGasLimitReached := by
  unfold GasPool.SubDataGas
  split_ifs with hc <;> simp_all [eq_comm]

theorem subDataGas_ok_iff (gp : GasPool) (n : Nat) (gp' : GasPool) :
    gp.SubDataGas n = Except.ok gp' ↔
      ¬ gp.dataGas < n ∧ gp' = { gp with dataGas := gp.dataGas - n } := by
  unfold GasPool.SubDataGas
  split_ifs with hc <;> simp_all [eq_comm]

theorem buyGas_error_state (st st' : StateTransition) (e : TxErr)
    (h : st.buyGas = (st', some e)) :
    st'.state = st.state ∧ st'.msg = st.msg ∧ st'.evm = st.evm ∧
    st'.gp.dataGas = st.gp.dataGas ∧
    (e ≠ TxErr.dataGasLimitReached → st'.gp = st.gp) ∧
    (e = TxErr.dataGasLimitReached →
      st.msg.Gas ≤ st.gp.gas ∧ st'.gp.gas = st.gp.gas - st.msg.Gas) := by
  simp only [StateTransition.buyGas] at h
  repeat' split at h
  all_goals (
    rw [Prod.mk.injEq] at h
    obtain ⟨h1, h2⟩ := h
    subst h1
    first
      | exact Option.noConfusion h2
      | (injection h2 with h2
         subst h2
         refine ⟨rfl, rfl, rfl, ?_, fun hx => ?_, fun hx => ?_⟩ <;>
           first
             | rfl
             | simp_all [subGas_error_iff, subGas_ok_iff, subDataGas_error_iff,
                 subDataGas_ok_iff]))

/-- Successful `buyGas`: the pools are debited by the gas limit and the data
gas used, the working gas counter receives the gas limit, and the sender is
debited by exactly `gasCost (+ l1Cost) (+ dataCost)`. -/
theorem buyGas_ok_spec (st st' : StateTransition) (h : st.buyGas = (st', none)) :
    st'.msg = st.msg ∧ st'.evm = st.evm ∧
    st'.gasRemaining = uadd st.gasRemaining st.msg.Gas ∧
    st.msg.Gas ≤ st.gp.gas ∧
    st'.gp.gas = st.gp.gas - st.msg.Gas ∧
    (if st.evm.IsSharding then st.dataGasUsed else 0) ≤ st.gp.dataGas ∧
    st'.gp.dataGas = st.gp.dataGas - (if st.evm.IsSharding then st.dataGasUsed else 0) ∧
    st'.state = st.state.SubBalance st.msg.From
      ((st.msg.Gas : Int) * st.msg.GasPrice + l1CostOf st.evm st.msg + dataCostOf st) := by
  simp only [StateTransition.buyGas] at h
  repeat' split at h
  all_goals (
    rw [Prod.mk.injEq] at h
    obtain ⟨h1, h2⟩ := h
    first
      | exact Option.noConfusion h2
      | (subst h1
         refine ⟨rfl, rfl, rfl, ?_, ?_, ?_, ?_, ?_⟩ <;>
           first
             | rfl
             | simp_all [subGas_error_iff, subGas_ok_iff, subDataGas_error_iff,
                 subDataGas_ok_iff, l1CostOf, dataCostOf]))

/-- For a non-deposit message, a successful `preCheck` is exactly a successful
`buyGas`: the nonce/EOA/fee/data-gas checks mutate nothing. -/
theorem preCheck_nondeposit_ok (st st1 : StateTransition)
    (hdep : st.msg.IsDepositTx = false) (h : st.preCheck = (st1, none)) :
    st.buyGas = (st1, none) := by
  simp only [StateTransition.preCheck, hdep, Bool.false_eq_true, if_false] at h
  repeat' split at h
  all_goals
    first
      | exact h
      | (rw [Prod.mk.injEq] at h
         exact Option.noConfusion h.2)

/-- `preCheck` preserves the message and environment in its working state. -/
theorem preCheck_preserves (st st1 : StateTransition) (r : Option TxErr)
    (h : st.preCheck = (st1, r)) : st1.msg = st.msg ∧ st1.evm = st.evm := by
  simp only [StateTransition.preCheck] at h
  repeat' split at h
  all_goals
    first
      | (rw [Prod.mk.injEq] at h
         obtain ⟨h1, h2⟩ := h
         subst h1
         exact ⟨rfl, rfl⟩)
      | (cases r with
         | none =>
           obtain ⟨hm, he, -⟩ := buyGas_ok_spec st st1 h
           exact ⟨hm, he⟩
         | some e =>
           obtain ⟨-, hm, he, -⟩ := buyGas_error_state st st1 e h
           exact ⟨hm, he⟩)

/-- `refundGas` in closed form: the refund is `min (gasUsed / quotient)
(refund counter)`; the sender is credited `remaining × gasPrice` and the gas
pool gets `remaining` back. -/
theorem refundGas_eq (st : StateTransition) (q : Nat) :
    st.refundGas q =
      { st with
        gasRemaining := uadd st.gasRemaining (min (st.gasUsed / q) st.state.refund),
        state := st.state.AddBalance st.msg.From
          ((uadd st.gasRemaining (min (st.gasUsed / q) st.state.refund) : Int) *
            st.msg.GasPrice),
        gp := st.gp.AddGas
          (uadd st.gasRemaining (min (st.gasUsed / q) st.state.refund)) } := by
  have hmin : (if st.gasUsed / q > st.state.refund then st.state.refund
      else st.gasUsed / q) = min (st.gasUsed / q) st.state.refund := by
    rw [min_def]; split_ifs <;> omega
  simp only [StateTransition.refundGas, hmin]

/-- For a non-deposit message, `finishTx` always succeeds; it reports the
post-refund `gasUsed`, and only refund settlement (never the tip or rollup
credits) touches the gas pool and the remaining-gas counter. -/
theorem finishTx_nondeposit (st4 : StateTransition) (ret : List Nat)
    (vmerr : Option VMErr) (hdep : st4.msg.IsDepositTx = false) :
    ∃ stF : StateTransition,
      st4.finishTx ret vmerr =
        (stF, Except.ok
          { UsedGas := (if !st4.evm.rules.IsLondon then st4.refundGas RefundQuotient
                        else st4.refundGas RefundQuotientEIP3529).gasUsed,
            Err := vmerr.map ResErr.vm, ReturnData := ret }) ∧
      stF.gp = (if !st4.evm.rules.IsLondon then st4.refundGas RefundQuotient
                else st4.refundGas RefundQuotientEIP3529).gp ∧
      stF.gasRemaining = (if !st4.evm.rules.IsLondon then st4.refundGas RefundQuotient
                          else st4.refundGas RefundQuotientEIP3529).gasRemaining ∧
      stF.msg = st4.msg ∧ stF.evm = st4.evm := by
  simp only [StateTransition.finishTx, hdep, Bool.false_eq_true, if_false]
  repeat' split
  all_goals exact ⟨_, rfl, rfl, rfl, rfl, rfl⟩

/-- Decomposition of a successful non-deposit `innerTransitionDb` run:
`preCheck` succeeded, intrinsic gas was charged, the VM was invoked with the
post-intrinsic budget, and the result went through refund settlement with the
London-dependent quotient. -/
theorem inner_ok_nondeposit (st st' : StateTransition) (res : ExecutionResult)
    (hdep : st.msg.IsDepositTx = false)
    (h : st.innerTransitionDb = (st', Except.ok res)) :
    ∃ (st1 : StateTransition) (gasI : Nat) (r : CallResult),
      st.preCheck = (st1, none) ∧
      st1.msg = st.msg ∧ st1.evm = st.evm ∧
      IntrinsicGas st.msg.Data st.msg.AccessList st.msg.To.isNone
        st.evm.rules.IsHomestead st.evm.rules.IsIstanbul st.evm.rules.IsShanghai =
        Except.ok gasI ∧
      ¬ st1.gasRemaining < gasI ∧
      ((st1.msg.To.isNone = true ∧
         r = st1.evm.Create st1.state st1.msg.From st1.msg.Data
           (st1.gasRemaining - gasI) st1.msg.Value) ∨
       (st1.msg.To.isNone = false ∧
         r = st1.evm.Call
           (st1.state.SetNonce st1.msg.From (uadd (st1.state.nonce st1.msg.From) 1))
           st1.msg.From (st1.msg.To.getD 0) st1.msg.Data
           (st1.gasRemaining - gasI) st1.msg.Value)) ∧
      (let st4 : StateTransition :=
        { st1 with gasRemaining := r.gasLeft, state := r.world };
       let st5 : StateTransition :=
         if !st1.evm.rules.IsLondon then st4.refundGas RefundQuotient
         else st4.refundGas RefundQuotientEIP3529;
       st'.gp = st5.gp ∧ st'.gasRemaining = st5.gasRemaining ∧
       st'.msg = st.msg ∧ st'.evm = st.evm ∧
       res.UsedGas = st5.gasUsed ∧ res.ReturnData = r.ret) := by
  simp only [StateTransition.innerTransitionDb, StateTransition.to,
    WorldState.Prepare] at h
  split at h
  next st1 e heq =>
    rw [Prod.mk.injEq] at h
    exact Except.noConfusion h.2
  next st1 heq =>
    obtain ⟨hmsg, hevm⟩ := preCheck_preserves st st1 none heq
    split at h
    next e heq2 =>
      rw [Prod.mk.injEq] at h
      exact Except.noConfusion h.2
    next gasI heq2 =>
      rw [hmsg, hevm] at heq2
      split at h
      next hlt =>
        rw [Prod.mk.injEq] at h
        exact Except.noConfusion h.2
      next hlt =>
        split at h
        next hval =>
          rw [Prod.mk.injEq] at h
          exact Except.noConfusion h.2
        next hval =>
          split at h
          next hsh =>
            rw [Prod.mk.injEq] at h
            exact Except.noConfusion h.2
          next hsh =>
            split at h
            next hcc =>
              obtain ⟨stF, hfin, hgp, hgr, hm, he⟩ :=
                finishTx_nondeposit
                  { st1 with
                    gasRemaining := (st1.evm.Create st1.state st1.msg.From st1.msg.Data
                      (st1.gasRemaining - gasI) st1.msg.Value).gasLeft,
                    state := (st1.evm.Create st1.state st1.msg.From st1.msg.Data
                      (st1.gasRemaining - gasI) st1.msg.Value).world }
                  (st1.evm.Create st1.state st1.msg.From st1.msg.Data
                    (st1.gasRemaining - gasI) st1.msg.Value).ret
                  (st1.evm.Create st1.state st1.msg.From st1.msg.Data
                    (st1.gasRemaining - gasI) st1.msg.Value).vmerr
                  (by simpa [hmsg] using hdep)
              rw [hfin] at h
              rw [Prod.mk.injEq] at h
              obtain ⟨h1, h2⟩ := h
              subst h1
              rw [Except.ok.injEq] at h2
              subst h2
              exact ⟨st1, gasI,
                st1.evm.Create st1.state st1.msg.From st1.msg.Data
                  (st1.gasRemaining - gasI) st1.msg.Value,
                heq, hmsg, hevm, heq2, hlt, Or.inl ⟨hcc, rfl⟩,
                hgp, hgr, hm.trans hmsg, he.trans hevm, rfl, rfl⟩
            next hcc =>
              obtain ⟨stF, hfin, hgp, hgr, hm, he⟩ :=
                finishTx_nondeposit
                  { st1 with
                    gasRemaining := (st1.evm.Call
                      (st1.state.SetNonce st1.msg.From (uadd (st1.state.nonce st1.msg.From) 1))
                      st1.msg.From (st1.msg.To.getD 0) st1.msg.Data
                      (st1.gasRemaining - gasI) st1.msg.Value).gasLeft,
                    state := (st1.evm.Call
                      (st1.state.SetNonce st1.msg.From (uadd (st1.state.nonce st1.msg.From) 1))
                      st1.msg.From (st1.msg.To.getD 0) st1.msg.Data
                      (st1.gasRemaining - gasI) st1.msg.Value).world }
                  (st1.evm.Call
                    (st1.state.SetNonce st1.msg.From (uadd (st1.state.nonce st1.msg.From) 1))
                    st1.msg.From (st1.msg.To.getD 0) st1.msg.Data
                    (st1.gasRemaining - gasI) st1.msg.Value).ret
                  (st1.evm.Call
                    (st1.state.SetNonce st1.msg.From (uadd (st1.state.nonce st1.msg.From) 1))
                    st1.msg.From (st1.msg.To.getD 0) st1.msg.Data
                    (st1.gasRemaining - gasI) st1.msg.Value).vmerr
                  (by simpa [hmsg] using hdep)
              rw [hfin] at h
              rw [Prod.mk.injEq] at h
              obtain ⟨h1, h2⟩ := h
              subst h1
              rw [Except.ok.injEq] at h2
              subst h2
              exact ⟨st1, gasI,
                st1.evm.Call
                  (st1.state.SetNonce st1.msg.From (uadd (st1.state.nonce st1.msg.From) 1))
                  st1.msg.From (st1.msg.To.getD 0) st1.msg.Data
                  (st1.gasRemaining - gasI) st1.msg.Value,
                heq, hmsg, hevm, heq2, hlt,
                Or.inr ⟨Bool.eq_false_iff.mpr hcc, rfl⟩,
                hgp, hgr, hm.trans hmsg, he.trans hevm, rfl, rfl⟩

theorem applyMintSt_fields (st : StateTransition) :
    (applyMintSt st).msg = st.msg ∧ (applyMintSt st).evm = st.evm ∧
    (applyMintSt st).gp = st.gp ∧ (applyMintSt st).gasRemaining = st.gasRemaining := by
  unfold applyMintSt
  cases st.msg.Mint <;> exact ⟨rfl, rfl, rfl, rfl⟩

/-- `finishTx` preserves the message and environment. -/
theorem finishTx_preserves (st4 : StateTransition) (ret : List Nat)
    (vmerr : Option VMErr) (st' : StateTransition) (r : Except TxErr ExecutionResult)
    (h : st4.finishTx ret vmerr = (st', r)) :
    st'.msg = st4.msg ∧ st'.evm = st4.evm := by
  simp only [StateTransition.finishTx] at h
  repeat' split at h
  all_goals (
    rw [Prod.mk.injEq] at h
    obtain ⟨h1, h2⟩ := h
    subst h1
    exact ⟨rfl, rfl⟩)

/-- `innerTransitionDb` preserves the message and environment. -/
theorem inner_preserves (st st' : StateTransition) (r : Except TxErr ExecutionResult)
    (h : st.innerTransitionDb = (st', r)) :
    st'.msg = st.msg ∧ st'.evm = st.evm := by
  simp only [StateTransition.innerTransitionDb, StateTransition.to,
    WorldState.Prepare] at h
  split at h
  next st1 e heq =>
    rw [Prod.mk.injEq] at h
    obtain ⟨h1, h2⟩ := h
    subst h1
    exact preCheck_preserves st st1 _ heq
  next st1 heq =>
    have hp := preCheck_preserves st st1 none heq
    repeat' split at h
    all_goals
      first
        | (rw [Prod.mk.injEq] at h
           obtain ⟨h1, h2⟩ := h
           subst h1
           exact hp)
        | (obtain ⟨hm, he⟩ := finishTx_preserves _ _ _ _ _ h
           exact ⟨hm.trans hp.1, he.trans hp.2⟩)

/-- For a non-deposit message, `TransitionDb` is the mint step followed by
`innerTransitionDb`, with a successful result passed through unchanged. -/
theorem transitionDb_nondeposit_ok (st st' : StateTransition) (res : ExecutionResult)
    (hdep : st.msg.IsDepositTx = false)
    (h : st.TransitionDb = (st', Except.ok res)) :
    (applyMintSt st).innerTransitionDb = (st', Except.ok res) := by
  simp only [StateTransition.TransitionDb, WorldState.Snapshot] at h
  have hmint : (applyMintSt st).msg = st.msg := (applyMintSt_fields st).1
  rcases hrun : (applyMintSt st).innerTransitionDb with ⟨st1, r1⟩
  have hrun' : (match st.msg.Mint with
      | some mint => { st with state := st.state.AddBalance st.msg.From mint }
      | none => st : StateTransition).innerTransitionDb = (st1, r1) := hrun
  rw [hrun'] at h
  rcases r1 with e | res1
  · obtain ⟨hm, -⟩ := inner_preserves _ _ _ hrun
    rw [hmint] at hm
    have hdep1 : st1.msg.IsDepositTx = false := by rw [hm]; exact hdep
    simp only [hdep1, Bool.false_eq_true, and_false, if_false] at h
    rw [Prod.mk.injEq] at h
    exact Except.noConfusion h.2
  · rw [Prod.mk.injEq] at h
    obtain ⟨h1, h2⟩ := h
    subst h1
    rw [Except.ok.injEq] at h2
    subst h2
    rfl

theorem uadd_small (a b : Nat) (h : a + b < 2 ^ 64) : uadd a b = a + b := by
  unfold uadd; omega

theorem usub_small (a b : Nat) (hb : b ≤ a) (ha : a < 2 ^ 64) : usub a b = a - b := by
  unfold usub; omega

theorem addBalance_balance_self (w : WorldState) (a : Nat) (v : Int) :
    (w.AddBalance a v).balance a = w.balance a + v := by
  simp [WorldState.AddBalance]

/-- A successful non-deposit `ApplyMessage` run, consolidated: the gas pool
was debited by the gas limit in `buyGas`, the VM returned a bounded remaining
gas, and the final pool/result fields come from refund settlement on the
post-execution working state `st4`. -/
theorem applyMessage_nondeposit_run (evm : EVMModel) (msg : Message) (gp : GasPool)
    (ws : WorldState) (st' : StateTransition) (res : ExecutionResult)
    (hdep : msg.IsDepositTx = false) (hgas : msg.Gas < 2 ^ 64)
    (hvm : VMGasBounded evm)
    (h : ApplyMessage evm msg gp ws = (st', Except.ok res)) :
    ∃ (st4 : StateTransition) (gasI : Nat),
      st4.msg = msg ∧ st4.evm = evm ∧
      IntrinsicGas msg.Data msg.AccessList msg.To.isNone
        evm.rules.IsHomestead evm.rules.IsIstanbul evm.rules.IsShanghai =
        Except.ok gasI ∧
      gasI ≤ msg.Gas ∧ st4.gasRemaining ≤ msg.Gas - gasI ∧
      msg.Gas ≤ gp.gas ∧ st4.gp.gas = gp.gas - msg.Gas ∧
      (let st5 := if !evm.rules.IsLondon then st4.refundGas RefundQuotient
                  else st4.refundGas RefundQuotientEIP3529;
       st'.gp = st5.gp ∧ res.UsedGas = st5.gasUsed ∧
       st'.gasRemaining = st5.gasRemaining) := by
  have hinner := transitionDb_nondeposit_ok (NewStateTransition evm msg gp ws) st' res hdep h
  simp only [NewStateTransition] at hinner
  obtain ⟨hm0, he0, hg0, hr0⟩ := applyMintSt_fields (NewStateTransition evm msg gp ws)
  simp only [NewStateTransition] at hm0 he0 hg0 hr0
  have hdep0 : (applyMintSt { gp := gp, msg := msg, gasRemaining := 0, state := ws, evm := evm : StateTransition }).msg.IsDepositTx = false := by
    rw [hm0]; exact hdep
  obtain ⟨st1, gasI, r, hpre, hmsg, hevm, hint, hlt, hr, hfin⟩ :=
    inner_ok_nondeposit _ st' res hdep0 hinner
  rw [hm0, he0] at hint
  obtain ⟨hbm, hbe, hbg, hble, hbgas, -, -, -⟩ :=
    buyGas_ok_spec _ st1 (preCheck_nondeposit_ok _ st1 hdep0 hpre)
  rw [hm0] at hbm
  rw [he0] at hbe
  have hmsg1 : st1.msg = msg := hmsg.trans hm0
  have hevm1 : st1.evm = evm := hevm.trans he0
  rw [hr0, hm0] at hbg
  rw [hg0, hm0] at hbgas hble
  have hgr1 : st1.gasRemaining = msg.Gas := by
    rw [hbg, uadd_small 0 msg.Gas (by omega)]
    omega
  have hgp1 : st1.gp.gas = gp.gas - msg.Gas := hbgas
  have hgple : msg.Gas ≤ gp.gas := hble
  have hrb : r.gasLeft ≤ msg.Gas - gasI := by
    rcases hr with ⟨hcc, hre⟩ | ⟨hcc, hre⟩
    · rw [hre, hevm1]
      calc (evm.Create st1.state st1.msg.From st1.msg.Data
            (st1.gasRemaining - gasI) st1.msg.Value).gasLeft
          ≤ st1.gasRemaining - gasI := hvm.2 _ _ _ _ _
        _ = msg.Gas - gasI := by rw [hgr1]
    · rw [hre, hevm1]
      calc (evm.Call _ st1.msg.From (st1.msg.To.getD 0) st1.msg.Data
            (st1.gasRemaining - gasI) st1.msg.Value).gasLeft
          ≤ st1.gasRemaining - gasI := hvm.1 _ _ _ _ _ _
        _ = msg.Gas - gasI := by rw [hgr1]
  refine ⟨{ st1 with gasRemaining := r.gasLeft, state := r.world }, gasI,
    hmsg1, hevm1, hint, ?_, ?_, hgple, hgp1, ?_⟩
  · rw [hgr1] at hlt
    omega
  · exact hrb
  · obtain ⟨ha, hb, -, -, hc, -⟩ := hfin
    rw [← hevm1]
    exact ⟨ha, hc, hb⟩

/-- Arithmetic of refund settlement when the working remaining gas is within
the message's gas limit. -/
theorem refund_arith (st4 : StateTransition) (q : Nat)
    (hrem : st4.gasRemaining ≤ st4.msg.Gas) (hgas : st4.msg.Gas < 2 ^ 64) :
    (st4.refundGas q).gp.gas = st4.gp.gas + (st4.refundGas q).gasRemaining ∧
    st4.gasRemaining ≤ (st4.refundGas q).gasRemaining ∧
    (st4.refundGas q).gasRemaining ≤
      st4.gasRemaining + (st4.msg.Gas - st4.gasRemaining) / q ∧
    (st4.refundGas q).gasRemaining ≤ st4.msg.Gas ∧
    (st4.refundGas q).gasUsed = st4.msg.Gas - (st4.refundGas q).gasRemaining := by
  rw [refundGas_eq]
  simp only [StateTransition.gasUsed, GasPool.AddGas]
  rw [usub_small _ _ hrem hgas]
  obtain ⟨D, hD1, hD2⟩ : ∃ D, D ≤ st4.msg.Gas - st4.gasRemaining ∧
      (st4.msg.Gas - st4.gasRemaining) / q = D := ⟨_, Nat.div_le_self _ _, rfl⟩
  rw [hD2]
  clear hD2
  rcases Nat.le_total D st4.state.refund with hmin | hmin
  · rw [min_eq_left hmin, uadd_small _ _ (by omega), usub_small _ _ (by omega) hgas]
    refine ⟨?_, ?_, ?_, ?_, ?_⟩ <;> first | trivial | omega
  · rw [min_eq_right hmin, uadd_small _ _ (by omega), usub_small _ _ (by omega) hgas]
    refine ⟨?_, ?_, ?_, ?_, ?_⟩ <;> first | trivial | omega

/-- C10: gas-pool conservation for successful non-deposit transitions: the
net decrease of the block gas pool's ordinary-gas counter equals exactly the
reported `UsedGas` (the gas limit is subtracted in `buyGas` and the
post-refund remaining gas is added back in `refundGas`). -/
theorem gas_pool_conservation (evm : EVMModel) (msg : Message) (gp : GasPool)
    (ws : WorldState) (st' : StateTransition) (res : ExecutionResult)
    (hdep : msg.IsDepositTx = false) (hgas : msg.Gas < 2 ^ 64)
    (hvm : VMGasBounded evm)
    (h : ApplyMessage evm msg gp ws = (st', Except.ok res)) :
    st'.gp.gas + res.UsedGas = gp.gas := by
  obtain ⟨st4, gasI, hm4, he4, hint, hgle, hg4, hgple, hgp4, hgp', hused, hgr'⟩ :=
    applyMessage_nondeposit_run evm msg gp ws st' res hdep hgas hvm h
  have hrem : st4.gasRemaining ≤ msg.Gas := by omega
  cases hL : evm.rules.IsLondon <;>
    simp only [hL, Bool.not_false, Bool.not_true, if_true, if_false,
      Bool.true_eq_false, Bool.false_eq_true] at hgp' hused <;>
    [obtain ⟨ha, hb, hc, hd, he⟩ := refund_arith st4 RefundQuotient
       (by rw [hm4]; omega) (by rw [hm4]; omega);
     obtain ⟨ha, hb, hc, hd, he⟩ := refund_arith st4 RefundQuotientEIP3529
       (by rw [hm4]; omega) (by rw [hm4]; omega)] <;>
    rw [hm4] at hc hd he <;>
    rw [hgp'] <;>
    rw [he] at hused <;>
    omega

/-- C3 (amended): for a successful non-deposit transition, `UsedGas` never
exceeds the gas limit; it equals the pre-refund used gas (which is at least
the intrinsic gas and at most the gas limit) minus the applied refund, which
is at most `preUsed / refundQuotient` — so `UsedGas` may fall below the
intrinsic gas by at most that refund (see the counterexample for the original
lower bound). -/
theorem usedGas_bounds_amended (evm : EVMModel) (msg : Message) (gp : GasPool)
    (ws : WorldState) (st' : StateTransition) (res : ExecutionResult)
    (hdep : msg.IsDepositTx = false) (hgas : msg.Gas < 2 ^ 64)
    (hvm : VMGasBounded evm)
    (h : ApplyMessage evm msg gp ws = (st', Except.ok res)) :
    res.UsedGas ≤ msg.Gas ∧
    ∃ gasI preUsed,
      IntrinsicGas msg.Data msg.AccessList msg.To.isNone evm.rules.IsHomestead
        evm.rules.IsIstanbul evm.rules.IsShanghai = Except.ok gasI ∧
      gasI ≤ preUsed ∧ preUsed ≤ msg.Gas ∧ res.UsedGas ≤ preUsed ∧
      preUsed - preUsed / (if evm.rules.IsLondon then RefundQuotientEIP3529
        else RefundQuotient) ≤ res.UsedGas := by
  obtain ⟨st4, gasI, hm4, he4, hint, hgle, hg4, hgple, hgp4, hgp', hused, hgr'⟩ :=
    applyMessage_nondeposit_run evm msg gp ws st' res hdep hgas hvm h
  cases hL : evm.rules.IsLondon <;>
    simp only [hL, Bool.not_false, Bool.not_true, if_true, if_false,
      Bool.true_eq_false, Bool.false_eq_true] at hgp' hused ⊢ <;>
    [obtain ⟨ha, hb, hc, hd, he⟩ := refund_arith st4 RefundQuotient
       (by rw [hm4]; omega) (by rw [hm4]; omega);
     obtain ⟨ha, hb, hc, hd, he⟩ := refund_arith st4 RefundQuotientEIP3529
       (by rw [hm4]; omega) (by rw [hm4]; omega)] <;>
    rw [hm4] at hc hd he <;>
    rw [he] at hused <;>
    exact ⟨by omega, gasI, msg.Gas - st4.gasRemaining, hint, by omega, by omega,
      by omega, by omega⟩

/-- `refundGas` in fully additive closed form (no wrapping), for working
states whose remaining gas is within the gas limit. -/
theorem refundGas_closed (st4 : StateTransition) (q : Nat)
    (hrem : st4.gasRemaining ≤ st4.msg.Gas) (hgas : st4.msg.Gas < 2 ^ 64) :
    (st4.refundGas q).gasRemaining =
      st4.gasRemaining + min (st4.gasUsed / q) st4.state.refund ∧
    (st4.refundGas q).state.balance st4.msg.From =
      st4.state.balance st4.msg.From +
        ((st4.gasRemaining + min (st4.gasUsed / q) st4.state.refund : Nat) : Int) *
          st4.msg.GasPrice ∧
    (st4.refundGas q).gp.gas =
      st4.gp.gas + (st4.gasRemaining + min (st4.gasUsed / q) st4.state.refund) := by
  have hgu : st4.gasUsed = st4.msg.Gas - st4.gasRemaining := by
    unfold StateTransition.gasUsed
    rw [usub_small _ _ hrem hgas]
  have hb1 : min (st4.gasUsed / q) st4.state.refund ≤ st4.gasUsed :=
    le_trans (min_le_left _ _) (Nat.div_le_self _ _)
  have hb2 : st4.gasRemaining + min (st4.gasUsed / q) st4.state.refund < 2 ^ 64 := by
    omega
  rw [refundGas_eq]
  simp only [GasPool.AddGas]
  rw [uadd_small _ _ hb2]
  exact ⟨rfl, addBalance_balance_self _ _ _, rfl⟩

/-- C7: refund settlement for a successful non-deposit transition.  The
refund added to remaining gas is `min (usedGas / refundQuotient, refund
counter)` with quotient `2` before London and `5` after; the sender is then
credited `remainingGas × gasPrice` (the plain gas-price field), and
`remainingGas` is returned to the block gas pool. -/
theorem refund_settlement_spec (evm : EVMModel) (msg : Message) (gp : GasPool)
    (ws : WorldState) (st' : StateTransition) (res : ExecutionResult)
    (hdep : msg.IsDepositTx = false) (hgas : msg.Gas < 2 ^ 64)
    (hvm : VMGasBounded evm)
    (h : ApplyMessage evm msg gp ws = (st', Except.ok res)) :
    ∃ stExec : StateTransition,
      stExec.msg = msg ∧ stExec.evm = evm ∧
      (let q := if evm.rules.IsLondon then RefundQuotientEIP3529 else RefundQuotient;
       let refund := min (stExec.gasUsed / q) stExec.state.refund;
       let remaining := stExec.gasRemaining + refund;
       (stExec.refundGas q).gasRemaining = remaining ∧
       (stExec.refundGas q).state.balance msg.From =
         stExec.state.balance msg.From + (remaining : Int) * msg.GasPrice ∧
       (stExec.refundGas q).gp.gas = stExec.gp.gas + remaining ∧
       st'.gp = (stExec.refundGas q).gp ∧
       res.UsedGas = (stExec.refundGas q).gasUsed) ∧
      RefundQuotient = 2 ∧ RefundQuotientEIP3529 = 5 := by
  obtain ⟨st4, gasI, hm4, he4, hint, hgle, hg4, hgple, hgp4, hgp', hused, hgr'⟩ :=
    applyMessage_nondeposit_run evm msg gp ws st' res hdep hgas hvm h
  refine ⟨st4, hm4, he4, ?_, rfl, rfl⟩
  cases hL : evm.rules.IsLondon <;>
    simp only [hL, Bool.not_false, Bool.not_true, if_true, if_false,
      Bool.true_eq_false, Bool.false_eq_true] at hgp' hused ⊢ <;>
    [obtain ⟨ha, hb, hc⟩ := refundGas_closed st4 RefundQuotient
       (by rw [hm4]; omega) (by rw [hm4]; omega);
     obtain ⟨ha, hb, hc⟩ := refundGas_closed st4 RefundQuotientEIP3529
       (by rw [hm4]; omega) (by rw [hm4]; omega)] <;>
    rw [hm4] at hb <;>
    exact ⟨ha, hb, hc, hgp', hused⟩

theorem setNonce_balance (w : WorldState) (a n : Nat) :
    (w.SetNonce a n).balance = w.balance := rfl

theorem setNonce_nonce_self (w : WorldState) (a n : Nat) :
    (w.SetNonce a n).nonce a = n := by
  simp [WorldState.SetNonce]

theorem addBalance_nonce (w : WorldState) (a : Nat) (v : Int) :
    (w.AddBalance a v).nonce = w.nonce := rfl

theorem applyMintSt_state_nonce (st : StateTransition) :
    (applyMintSt st).state.nonce = st.state.nonce := by
  unfold applyMintSt
  cases st.msg.Mint <;> rfl

/-- A deposit whose inner pipeline fails with anything but gas-limit-reached:
the state is rolled back to the post-mint snapshot, the nonce is bumped, and
a synthesized successful envelope is returned. -/
theorem transitionDb_depositFail_notGas (evm : EVMModel) (msg : Message)
    (gp : GasPool) (ws : WorldState) (st1 : StateTransition) (err : TxErr)
    (hdep : msg.IsDepositTx = true)
    (hrun : (applyMintSt (NewStateTransition evm msg gp ws)).innerTransitionDb =
      (st1, Except.error err))
    (hne : err ≠ TxErr.gasLimitReached) :
    ApplyMessage evm msg gp ws =
      ({ st1 with state :=
          ((applyMintSt (NewStateTransition evm msg gp ws)).state.SetNonce st1.msg.From
            (uadd ((applyMintSt (NewStateTransition evm msg gp ws)).state.nonce
              st1.msg.From) 1)) },
       Except.ok { UsedGas := if st1.msg.IsSystemTx then 0 else st1.msg.Gas,
                   Err := some (ResErr.failedDeposit err), ReturnData := [] }) := by
  obtain ⟨hm1, he1⟩ := inner_preserves _ _ _ hrun
  have hdep1 : st1.msg.IsDepositTx = true := by
    rw [hm1, (applyMintSt_fields _).1]
    exact hdep
  simp only [ApplyMessage, StateTransition.TransitionDb, WorldState.Snapshot,
    WorldState.RevertToSnapshot]
  have hrun' : (match (NewStateTransition evm msg gp ws).msg.Mint with
      | some mint =>
        { NewStateTransition evm msg gp ws with
          state := (NewStateTransition evm msg gp ws).state.AddBalance
            (NewStateTransition evm msg gp ws).msg.From mint }
      | none => NewStateTransition evm msg gp ws).innerTransitionDb =
      (st1, Except.error err) := hrun
  rw [hrun']
  dsimp only
  rw [if_pos ⟨hne, hdep1⟩]
  rfl

/-- A deposit whose inner pipeline fails with gas-limit-reached: the error is
propagated unchanged. -/
theorem transitionDb_depositFail_gasLimit (evm : EVMModel) (msg : Message)
    (gp : GasPool) (ws : WorldState) (st1 : StateTransition)
    (hrun : (applyMintSt (NewStateTransition evm msg gp ws)).innerTransitionDb =
      (st1, Except.error TxErr.gasLimitReached)) :
    ApplyMessage evm msg gp ws = (st1, Except.error TxErr.gasLimitReached) := by
  simp only [ApplyMessage, StateTransition.TransitionDb, WorldState.Snapshot,
    WorldState.RevertToSnapshot]
  have hrun' : (match (NewStateTransition evm msg gp ws).msg.Mint with
      | some mint =>
        { NewStateTransition evm msg gp ws with
          state := (NewStateTransition evm msg gp ws).state.AddBalance
            (NewStateTransition evm msg gp ws).msg.From mint }
      | none => NewStateTransition evm msg gp ws).innerTransitionDb =
      (st1, Except.error TxErr.gasLimitReached) := hrun
  rw [hrun']
  dsimp only
  rw [if_neg (by simp)]

/-- C4: for a deposit message whose inner pipeline fails, a gas-limit-reached
error is propagated unchanged as a consensus error; any other error makes
`TransitionDb` revert to the post-mint snapshot, increment the sender's nonce
by exactly one, and return a nil consensus error with a result whose
`UsedGas` is the gas limit (or 0 for a system transaction), whose `Err` wraps
the original error, and whose `ReturnData` is empty. -/
theorem transitionDb_deposit_failure (evm : EVMModel) (msg : Message)
    (gp : GasPool) (ws : WorldState) (st1 : StateTransition) (err : TxErr)
    (hdep : msg.IsDepositTx = true)
    (hrun : (applyMintSt (NewStateTransition evm msg gp ws)).innerTransitionDb =
      (st1, Except.error err)) :
    if err = TxErr.gasLimitReached then
      ApplyMessage evm msg gp ws = (st1, Except.error TxErr.gasLimitReached)
    else
      (ApplyMessage evm msg gp ws).2 =
        Except.ok { UsedGas := if msg.IsSystemTx then 0 else msg.Gas,
                    Err := some (ResErr.failedDeposit err), ReturnData := [] } ∧
      (ApplyMessage evm msg gp ws).1.state =
        (applyMintSt (NewStateTransition evm msg gp ws)).state.SetNonce msg.From
          (uadd ((applyMintSt (NewStateTransition evm msg gp ws)).state.nonce
            msg.From) 1) ∧
      (ApplyMessage evm msg gp ws).1.state.nonce msg.From = uadd (ws.nonce msg.From) 1 := by
  obtain ⟨hm1, he1⟩ := inner_preserves _ _ _ hrun
  have hm1' : st1.msg = msg := hm1.trans (applyMintSt_fields _).1
  by_cases hif : err = TxErr.gasLimitReached
  · rw [if_pos hif]
    subst hif
    exact transitionDb_depositFail_gasLimit evm msg gp ws st1 hrun
  · rw [if_neg hif, transitionDb_depositFail_notGas evm msg gp ws st1 err hdep hrun hif]
    refine ⟨by rw [hm1'], by rw [hm1'], ?_⟩
    show ((applyMintSt (NewStateTransition evm msg gp ws)).state.SetNonce st1.msg.From
      (uadd ((applyMintSt (NewStateTransition evm msg gp ws)).state.nonce
        st1.msg.From) 1)).nonce msg.From = uadd (ws.nonce msg.From) 1
    rw [hm1', setNonce_nonce_self, applyMintSt_state_nonce]
    rfl

/-- C6: a non-nil mint amount is credited before the rollback snapshot is
taken, so when a deposit subsequently fails (other than by gas-limit) and all
post-snapshot changes are rolled back, the sender's balance still holds the
mint credit. -/
theorem mint_retained_on_deposit_failure (evm : EVMModel) (msg : Message)
    (gp : GasPool) (ws : WorldState) (st1 : StateTransition) (err : TxErr) (m : Int)
    (hdep : msg.IsDepositTx = true) (hmint : msg.Mint = some m)
    (hrun : (applyMintSt (NewStateTransition evm msg gp ws)).innerTransitionDb =
      (st1, Except.error err))
    (hne : err ≠ TxErr.gasLimitReached) :
    (ApplyMessage evm msg gp ws).1.state.balance msg.From = ws.balance msg.From + m := by
  rw [transitionDb_depositFail_notGas evm msg gp ws st1 err hdep hrun hne]
  show ((applyMintSt (NewStateTransition evm msg gp ws)).state.SetNonce st1.msg.From
    (uadd ((applyMintSt (NewStateTransition evm msg gp ws)).state.nonce
      st1.msg.From) 1)).balance msg.From = ws.balance msg.From + m
  rw [setNonce_balance]
  have : (applyMintSt (NewStateTransition evm msg gp ws)).state =
      ws.AddBalance msg.From m := by
    simp only [applyMintSt, NewStateTransition, hmint]
  rw [this, addBalance_balance_self]

theorem subBalance_balance_self (w : WorldState) (a : Nat) (v : Int) :
    (w.SubBalance a v).balance a = w.balance a - v := by
  simp [WorldState.SubBalance]

/-- C1 (amended): if `buyGas` returns an error then the sender's balance (and
the whole world state) is unchanged and the data-gas pool is unchanged: the
balance is debited only after both pool subtractions have succeeded.  The
ordinary-gas pool is also unchanged — except when the error is the data-gas
pool failure, in which case the gas-limit subtraction has already been taken
from the block gas pool and survives the failure. -/
theorem buyGas_allornothing_amended (st st' : StateTransition) (e : TxErr)
    (h : st.buyGas = (st', some e)) :
    st'.state = st.state ∧
    st'.gp.dataGas = st.gp.dataGas ∧
    (e ≠ TxErr.dataGasLimitReached → st'.gp = st.gp) ∧
    (e = TxErr.dataGasLimitReached →
      st.msg.Gas ≤ st.gp.gas ∧ st'.gp.gas = st.gp.gas - st.msg.Gas) := by
  obtain ⟨h1, -, -, h4, h5, h6⟩ := buyGas_error_state st st' e h
  exact ⟨h1, h4, h5, h6⟩

/-- Witness for the amended C1 theorem: an underfunded sender makes `buyGas`
fail with no mutation at all. -/
theorem buyGas_allornothing_amended_witness :
    (stPoor.buyGas).1.state = stPoor.state ∧
    (stPoor.buyGas).1.gp.dataGas = stPoor.gp.dataGas ∧
    (TxErr.insufficientFunds ≠ TxErr.dataGasLimitReached →
      (stPoor.buyGas).1.gp = stPoor.gp) ∧
    (TxErr.insufficientFunds = TxErr.dataGasLimitReached →
      stPoor.msg.Gas ≤ stPoor.gp.gas ∧
      (stPoor.buyGas).1.gp.gas = stPoor.gp.gas - stPoor.msg.Gas) :=
  buyGas_allornothing_amended stPoor (stPoor.buyGas).1 TxErr.insufficientFunds rfl

/-- C1 counterexample: with sharding active, `buyGas` subtracts the gas limit
from the block gas pool, then fails on the data-gas pool; the error return
leaves the gas pool debited by 21000 (100000 → 79000), so partial pool
consumption survives the failure (the balance is untouched). -/
theorem buyGas_partial_pool_counterexample :
    (stDataPool.buyGas).2 = some TxErr.dataGasLimitReached ∧
    stDataPool.gp.gas = 100000 ∧
    (stDataPool.buyGas).1.gp.gas = 79000 ∧
    (stDataPool.buyGas).1.state.balance stDataPool.msg.From =
      stDataPool.state.balance stDataPool.msg.From :=
  ⟨rfl, rfl, rfl, rfl⟩

/-- C5: for a non-deposit, non-fake message, a successful `preCheck` debits
the sender's balance by exactly `gasLimit × gasPrice + dataCost + l1Cost`
(data cost only when sharding is active, L1 cost only when the L1 cost
function returns one), before execution begins. -/
theorem preCheck_balance_debit (st st1 : StateTransition)
    (hdep : st.msg.IsDepositTx = false) (_hfake : st.msg.IsFake = false)
    (h : st.preCheck = (st1, none)) :
    st1.state.balance st.msg.From =
      st.state.balance st.msg.From -
        ((st.msg.Gas : Int) * st.msg.GasPrice + dataCostOf st +
          l1CostOf st.evm st.msg) := by
  obtain ⟨-, -, -, -, -, -, -, hstate⟩ :=
    buyGas_ok_spec st st1 (preCheck_nondeposit_ok st st1 hdep h)
  rw [hstate, subBalance_balance_self]
  ring

/-- Witness for the C5 debit theorem on a plain legacy transaction. -/
theorem preCheck_balance_debit_witness :
    (stLegacy.preCheck).1.state.balance stLegacy.msg.From =
      stLegacy.state.balance stLegacy.msg.From -
        ((stLegacy.msg.Gas : Int) * stLegacy.msg.GasPrice + dataCostOf stLegacy +
          l1CostOf stLegacy.evm stLegacy.msg) :=
  preCheck_balance_debit stLegacy (stLegacy.preCheck).1 rfl rfl rfl

/-- Witness for the C10 conservation theorem on a plain legacy transaction
through the identity VM oracle. -/
theorem gas_pool_conservation_witness :
    (ApplyMessage evmBase msgBase gpBase wsBase).1.gp.gas +
      ({ UsedGas := 21000, Err := none, ReturnData := [] } : ExecutionResult).UsedGas =
      gpBase.gas :=
  gas_pool_conservation evmBase msgBase gpBase wsBase
    (ApplyMessage evmBase msgBase gpBase wsBase).1
    { UsedGas := 21000, Err := none, ReturnData := [] }
    rfl (by decide)
    ⟨fun _ _ _ _ g _ => Nat.le_refl g, fun _ _ _ g _ => Nat.le_refl g⟩ rfl

/-- Witness for the amended C3 bounds theorem on a plain legacy transaction. -/
theorem usedGas_bounds_amended_witness :
    ({ UsedGas := 21000, Err := none, ReturnData := [] } : ExecutionResult).UsedGas ≤
      msgBase.Gas ∧
    ∃ gasI preUsed,
      IntrinsicGas msgBase.Data msgBase.AccessList msgBase.To.isNone
        evmBase.rules.IsHomestead evmBase.rules.IsIstanbul evmBase.rules.IsShanghai =
        Except.ok gasI ∧
      gasI ≤ preUsed ∧ preUsed ≤ msgBase.Gas ∧
      ({ UsedGas := 21000, Err := none, ReturnData := [] } : ExecutionResult).UsedGas ≤
        preUsed ∧
      preUsed - preUsed / (if evmBase.rules.IsLondon then RefundQuotientEIP3529
        else RefundQuotient) ≤
        ({ UsedGas := 21000, Err := none, ReturnData := [] } : ExecutionResult).UsedGas :=
  usedGas_bounds_amended evmBase msgBase gpBase wsBase
    (ApplyMessage evmBase msgBase gpBase wsBase).1
    { UsedGas := 21000, Err := none, ReturnData := [] }
    rfl (by decide)
    ⟨fun _ _ _ _ g _ => Nat.le_refl g, fun _ _ _ g _ => Nat.le_refl g⟩ rfl

/-- C3 counterexample to the original lower bound: an execution that burns
5000 gas but earns a 15000-unit storage-refund counter settles at `UsedGas =
13000`, strictly below the 21000 intrinsic gas of the same message. -/
theorem usedGas_below_intrinsic_counterexample :
    (ApplyMessage evmRefund msgBase gpBase wsBase).2 =
      Except.ok { UsedGas := 13000, Err := none, ReturnData := [] } ∧
    IntrinsicGas msgBase.Data msgBase.AccessList msgBase.To.isNone
      evmRefund.rules.IsHomestead evmRefund.rules.IsIstanbul
      evmRefund.rules.IsShanghai = Except.ok 21000 ∧
    13000 < 21000 :=
  ⟨rfl, rfl, by decide⟩

/-- Witness for the C7 refund-settlement theorem on a plain legacy
transaction. -/
theorem refund_settlement_spec_witness :
    ∃ stExec : StateTransition,
      stExec.msg = msgBase ∧ stExec.evm = evmBase ∧
      (let q := if evmBase.rules.IsLondon then RefundQuotientEIP3529 else RefundQuotient;
       let refund := min (stExec.gasUsed / q) stExec.state.refund;
       let remaining := stExec.gasRemaining + refund;
       (stExec.refundGas q).gasRemaining = remaining ∧
       (stExec.refundGas q).state.balance msgBase.From =
         stExec.state.balance msgBase.From + (remaining : Int) * msgBase.GasPrice ∧
       (stExec.refundGas q).gp.gas = stExec.gp.gas + remaining ∧
       (ApplyMessage evmBase msgBase gpBase wsBase).1.gp = (stExec.refundGas q).gp ∧
       ({ UsedGas := 21000, Err := none, ReturnData := [] } : ExecutionResult).UsedGas =
         (stExec.refundGas q).gasUsed) ∧
      RefundQuotient = 2 ∧ RefundQuotientEIP3529 = 5 :=
  refund_settlement_spec evmBase msgBase gpBase wsBase
    (ApplyMessage evmBase msgBase gpBase wsBase).1
    { UsedGas := 21000, Err := none, ReturnData := [] }
    rfl (by decide)
    ⟨fun _ _ _ _ g _ => Nat.le_refl g, fun _ _ _ g _ => Nat.le_refl g⟩ rfl

/-- Witness for the C4 deposit-failure theorem: a deposit with gas limit 1000
fails the intrinsic-gas check, and the failure is converted per C4. -/
theorem transitionDb_deposit_failure_witness :
    if TxErr.intrinsicGas = TxErr.gasLimitReached then
      ApplyMessage evmBase msgDepositFail gpBase wsBase =
        (stDepositFail, Except.error TxErr.gasLimitReached)
    else
      (ApplyMessage evmBase msgDepositFail gpBase wsBase).2 =
        Except.ok { UsedGas := if msgDepositFail.IsSystemTx then 0 else msgDepositFail.Gas,
                    Err := some (ResErr.failedDeposit TxErr.intrinsicGas),
                    ReturnData := [] } ∧
      (ApplyMessage evmBase msgDepositFail gpBase wsBase).1.state =
        (applyMintSt (NewStateTransition evmBase msgDepositFail gpBase wsBase)).state.SetNonce
          msgDepositFail.From
          (uadd ((applyMintSt
            (NewStateTransition evmBase msgDepositFail gpBase wsBase)).state.nonce
              msgDepositFail.From) 1) ∧
      (ApplyMessage evmBase msgDepositFail gpBase wsBase).1.state.nonce
          msgDepositFail.From =
        uadd (wsBase.nonce msgDepositFail.From) 1 :=
  transitionDb_deposit_failure evmBase msgDepositFail gpBase wsBase stDepositFail
    TxErr.intrinsicGas rfl rfl

/-- Witness for the C6 mint-retention theorem on the same failing deposit. -/
theorem mint_retained_on_deposit_failure_witness :
    (ApplyMessage evmBase msgDepositFail gpBase wsBase).1.state.balance
        msgDepositFail.From =
      wsBase.balance msgDepositFail.From + 5 :=
  mint_retained_on_deposit_failure evmBase msgDepositFail gpBase wsBase stDepositFail
    TxErr.intrinsicGas 5 rfl rfl rfl (by decide)

/-- C9: for every deposit transaction and all argument values, the signature
accessors never return a value: `rawSignatureValues` and `setSignatureValues`
both abort unconditionally with the signature-contract panic. -/
theorem depositTx_signature_accessors_abort (tx : DepositTx) (chainID v r s : Int) :
    (∀ x : Int × Int × Int, tx.rawSignatureValues ≠ PanicOr.value x) ∧
    (∀ u : Unit, tx.setSignatureValues chainID v r s ≠ PanicOr.value u) ∧
    tx.rawSignatureValues = PanicOr.panicked "deposit tx does not have a signature" ∧
    tx.setSignatureValues chainID v r s =
      PanicOr.panicked "deposit tx does not have a signature" :=
  ⟨fun _ h => PanicOr.noConfusion h, fun _ h => PanicOr.noConfusion h, rfl, rfl⟩
